import Mathlib

/-!
Shallow embedding of the order/inventory core of the mini-ecommerce repository
(order service in internal/database/database.go, repository transactional
methods, product stock ledger, DTOs from internal/order/handler.go), together
with theorems checking the natural-language specification against it.

Machine integers: Go `int` is modelled as `Int`, Go `uint` (identifiers) as
`Nat`; none of the verified code relies on wrap-around behaviour.
The relational store is modelled as lists of rows; a gorm transaction is
modelled as an `Except`-valued state transformer whose caller keeps the
original state on error (rollback is total and automatic).
-/

deriving instance DecidableEq for Except

namespace MiniEcommerce

/-- Go: `type OrderStatus string` (internal/order/model.go). -/
abbrev OrderStatus := String

def StatusPending : OrderStatus := "PENDING"

def StatusPaid : OrderStatus := "PAID"

def StatusCancelled : OrderStatus := "CANCELLED"

/-- Product row (internal/product, part_005): id, name, unit price, stock. -/
structure Product where
  id : Nat
  name : String
  price : Int
  stock : Int
deriving Repr, DecidableEq

/-- OrderItem row (internal/order/model.go). -/
structure OrderItem where
  id : Nat
  orderID : Nat
  productID : Nat
  quantity : Int
  price : Int
  subtotal : Int
deriving Repr, DecidableEq

/-- Order row with its eagerly loaded line items (internal/order/model.go). -/
structure Order where
  id : Nat
  userID : Nat
  totalPrice : Int
  status : OrderStatus
  orderItems : List OrderItem
deriving Repr, DecidableEq

/-- The named error conditions of the order service
(constants in internal/database/database.go lines 72-78, plus the two
validation failures surfaced before any lookup, plus the foreign-key
violation the storage engine raises on `tx.Delete` — an infrastructure error
the core propagates upward unchanged, spec section 7). -/
inductive OrderError where
  | orderNotFound
  | productNotFound
  | insufficientStock
  | notAuthorizedToUpdate
  | invalidStatusValue
  | cannotChangePaidOrderToPending
  | cannotChangeCancelledOrderStatus
  | userIDRequired
  | validationFailed
  | foreignKeyViolation
deriving Repr, DecidableEq

/-- The relational store: `products` and `orders` relations (order items are
held on their owning order, mirroring the eager `Preload`). -/
structure DBState where
  products : List Product
  orders : List Order
deriving Repr, DecidableEq

/-- `OrderItemInput` (internal/order/handler.go lines 302-305). -/
structure OrderItemInput where
  productID : Nat
  quantity : Int
deriving Repr, DecidableEq

/-- `CreateOrderRequest` (internal/order/handler.go lines 307-309). -/
structure CreateOrderRequest where
  items : List OrderItemInput
deriving Repr, DecidableEq

/-- `UpdateOrderRequest` (internal/order/handler.go lines 311-313): an optional
status string. -/
structure UpdateOrderRequest where
  status : Option OrderStatus
deriving Repr, DecidableEq

/-- Row lookup by product id (`repo.FindByID` on products; `find?` mirrors the
primary-key lookup, which returns the single matching row). -/
def findProduct (ps : List Product) (pid : Nat) : Option Product :=
  ps.find? (fun p => p.id = pid)

/-- Stock column of the product row with id `pid` (0 when absent); observation
helper used to state theorems about stock. -/
def stockOf (ps : List Product) (pid : Nat) : Int :=
  match findProduct ps pid with
  | some p => p.stock
  | none => 0

/-- Persisting an updated stock value for product `pid`. -/
def setProductStock (ps : List Product) (pid : Nat) (newStock : Int) : List Product :=
  ps.map (fun p => if p.id = pid then { p with stock := newStock } else p)

/-- Modelled from the spec: the order service calls
`productService.UpdateStockWithTx(tx, productID, delta)` (database.go lines
164, 241, 289) but the body of that product-service method is not among the
provided sources.  Spec section 4.2 (Stock Ledger, AdjustStock): read the
product row inside the transaction, fail with ProductNotFound if absent;
compute `newStock = stock + delta` and fail with InsufficientStock when
`newStock < 0`; otherwise persist `newStock` in the same transaction. -/
def updateStockWithTx (ps : List Product) (pid : Nat) (delta : Int) :
    Except OrderError (List Product) :=
  match findProduct ps pid with
  | none => .error .productNotFound
  | some p =>
      let newStock := p.stock + delta
      if newStock < 0 then .error .insufficientStock
      else .ok (setProductStock ps pid newStock)

/-- Binding/validate tags on `CreateOrderRequest` (handler.go lines 302-309):
`Items` is required with at least one element; each item needs a nonzero
`ProductID` and a `Quantity` strictly greater than zero. -/
def validateCreateRequest (input : CreateOrderRequest) : Bool :=
  !input.items.isEmpty &&
    input.items.all (fun it => it.productID ≠ 0 && decide (0 < it.quantity))

/-- Validate tag on `UpdateOrderRequest.Status` (handler.go line 312):
`omitempty,oneof=PENDING PAID CANCELLED`. -/
def validStatusString (s : OrderStatus) : Bool :=
  s = StatusPending || s = StatusPaid || s = StatusCancelled

/-- Validator check run at the top of `UpdateOrder` (database.go line 203). -/
def validateUpdateRequest (input : UpdateOrderRequest) : Bool :=
  match input.status with
  | none => true
  | some s => validStatusString s

/-- First loop of `CreateOrder` (database.go lines 126-143): look up every
product, build the line items with the captured unit price and
`subtotal = quantity * price`, and accumulate the total price. -/
def buildOrderItems (ps : List Product) :
    List OrderItemInput → Except OrderError (List OrderItem × Int)
  | [] => .ok ([], 0)
  | it :: rest =>
      match findProduct ps it.productID with
      | none => .error .productNotFound
      | some p =>
          let subtotal := it.quantity * p.price
          match buildOrderItems ps rest with
          | .error e => .error e
          | .ok (items, total) =>
              .ok ({ id := 0, orderID := 0, productID := it.productID,
                     quantity := it.quantity, price := p.price,
                     subtotal := subtotal } :: items,
                   subtotal + total)

/-- Total requested quantity for product `pid` across all lines of the request:
the value `stockUpdates[pid]` accumulates in database.go line 142. -/
def coalescedQty (items : List OrderItemInput) (pid : Nat) : Int :=
  ((items.filter (fun it => it.productID = pid)).map (fun it => it.quantity)).sum

/-- Key set of the `stockUpdates` map (one entry per distinct product id);
Go map iteration order is unspecified, so any duplicate-free enumeration is a
faithful model. -/
def distinctProductIDs (items : List OrderItemInput) : List Nat :=
  (items.map (fun it => it.productID)).dedup

/-- The `stockUpdates` map (database.go line 124) as an association list:
one `(productID, coalesced quantity)` pair per distinct product. -/
def stockUpdates (items : List OrderItemInput) : List (Nat × Int) :=
  (distinctProductIDs items).map (fun pid => (pid, coalescedQty items pid))

/-- Second loop of `CreateOrder` (database.go lines 145-153): for every entry
of `stockUpdates`, re-read the product and fail with InsufficientStock when
the coalesced quantity exceeds its current stock. -/
def checkStock (ps : List Product) : List (Nat × Int) → Except OrderError Unit
  | [] => .ok ()
  | (pid, qty) :: rest =>
      match findProduct ps pid with
      | none => .error .productNotFound
      | some p =>
          if p.stock < qty then .error .insufficientStock
          else checkStock ps rest

/-- Body of the creation transaction (database.go lines 162-174): decrement
stock for every entry of `stockUpdates`; the first failure aborts the
transaction. -/
def applyStockUpdates (ps : List Product) :
    List (Nat × Int) → Except OrderError (List Product)
  | [] => .ok ps
  | (pid, qty) :: rest =>
      match updateStockWithTx ps pid (-qty) with
      | .error e => .error e
      | .ok ps2 => applyStockUpdates ps2 rest

/-- `CreateOrder` (database.go lines 113-185).  `newID` stands for the
identifier the storage engine assigns to the inserted row.  The pair returned
is (service result, database state after the call); `CreateWithTransaction`
(part_015 lines 33-48) rolls the state back to the input state on any error. -/
def createOrder (s : DBState) (input : CreateOrderRequest) (userID : Nat)
    (newID : Nat) : Except OrderError Order × DBState :=
  if !validateCreateRequest input then (.error .validationFailed, s)
  else if userID = 0 then (.error .userIDRequired, s)
  else
    match buildOrderItems s.products input.items with
    | .error e => (.error e, s)
    | .ok (orderItems, totalPrice) =>
        match checkStock s.products (stockUpdates input.items) with
        | .error e => (.error e, s)
        | .ok _ =>
            let newOrder : Order :=
              { id := newID, userID := userID, totalPrice := totalPrice,
                status := StatusPending, orderItems := orderItems }
            match applyStockUpdates s.products (stockUpdates input.items) with
            | .error e => (.error e, s)
            | .ok ps2 =>
                (.ok newOrder,
                 { products := ps2, orders := s.orders ++ [newOrder] })

/-- `repo.FindByID` on orders (part_015 lines 56-60): primary-key lookup with
line items preloaded. -/
def findOrder (s : DBState) (id : Nat) : Option Order :=
  s.orders.find? (fun o => o.id = id)

/-- `validateStatusTransition` (database.go lines 265-281). -/
def validateStatusTransition (ord : Order) (newStatus : Option OrderStatus) :
    Except OrderError Unit :=
  match newStatus with
  | none => .ok ()
  | some st =>
      if validStatusString st then
        if ord.status = StatusPaid ∧ st = StatusPending then
          .error .cannotChangePaidOrderToPending
        else if ord.status = StatusCancelled ∧ st ≠ StatusCancelled then
          .error .cannotChangeCancelledOrderStatus
        else .ok ()
      else .error .invalidStatusValue

/-- Writing the status column of order `oid` (the `updateFn` plus `tx.Save`). -/
def setOrderStatus (orders : List Order) (oid : Nat) (st : OrderStatus) :
    List Order :=
  orders.map (fun o => if o.id = oid then { o with status := st } else o)

/-- Stock-restoration loop run inside the cancellation and deletion
transactions (database.go lines 240-249 and 288-297): increment each line
item's product stock by that line's quantity. -/
def restoreStockForItems (ps : List Product) :
    List OrderItem → Except OrderError (List Product)
  | [] => .ok ps
  | item :: rest =>
      match updateStockWithTx ps item.productID item.quantity with
      | .error e => .error e
      | .ok ps2 => restoreStockForItems ps2 rest

/-- `updateOrderStatus` (database.go lines 283-321): transitioning into
CANCELLED from a non-cancelled state restores stock and writes the status in
one transaction (`UpdateWithTransaction`, part_015 lines 71-89, rolled back as
a whole on error); every other write goes through `repo.Update` and touches no
stock. -/
def updateOrderStatus (s : DBState) (ord : Order) (newStatus : OrderStatus) :
    Except OrderError Order × DBState :=
  if newStatus = StatusCancelled ∧ ord.status ≠ StatusCancelled then
    match restoreStockForItems s.products ord.orderItems with
    | .error e => (.error e, s)
    | .ok ps2 =>
        (.ok { ord with status := newStatus },
         { products := ps2, orders := setOrderStatus s.orders ord.id newStatus })
  else
    (.ok { ord with status := newStatus },
     { s with orders := setOrderStatus s.orders ord.id newStatus })

/-- `UpdateOrder` (database.go lines 202-228). -/
def updateOrder (s : DBState) (id : Nat) (input : UpdateOrderRequest)
    (userID : Nat) : Except OrderError Order × DBState :=
  if !validateUpdateRequest input then (.error .validationFailed, s)
  else
    match findOrder s id with
    | none => (.error .orderNotFound, s)
    | some ord =>
        if ord.userID ≠ userID then (.error .notAuthorizedToUpdate, s)
        else
          match validateStatusTransition ord input.status with
          | .error e => (.error e, s)
          | .ok _ =>
              match input.status with
              | some st => updateOrderStatus s ord st
              | none => (.ok ord, s)

/-- Deleting the order row (and, by ownership, its line items). -/
def removeOrder (orders : List Order) (oid : Nat) : List Order :=
  orders.filter (fun o => o.id ≠ oid)

/-- `DeleteOrder` (database.go lines 230-262) with `DeleteWithTransaction`
(part_015 lines 95-110): restore stock for every line item, then `tx.Delete`
of the Order model at the id — a DELETE of the `orders` row only; nothing in
the transaction deletes `order_items` rows.  The schema
(migrations/000004) declares `order_items.order_id REFERENCES orders(id)`
with no ON DELETE CASCADE, and the gorm model tag carries no cascade
constraint either, so the row delete fails with a foreign-key violation
whenever line items reference the order; the transaction then rolls back as
a whole (including the stock restoration already applied inside it) and the
error is propagated unchanged. -/
def deleteOrder (s : DBState) (id : Nat) : Except OrderError Unit × DBState :=
  match findOrder s id with
  | none => (.error .orderNotFound, s)
  | some ord =>
      match restoreStockForItems s.products ord.orderItems with
      | .error e => (.error e, s)
      | .ok ps2 =>
          if ord.orderItems.isEmpty then
            (.ok (), { products := ps2, orders := removeOrder s.orders id })
          else (.error .foreignKeyViolation, s)

/-- Pagination/sort query (internal/order/handler.go OrderQuery plus the
embedded PaginationQuery). -/
structure OrderQuery where
  page : Int
  pageSize : Int
  sortBy : String
  order : String
deriving Repr, DecidableEq

/-- Allow-list of sort fields (database.go lines 344-346). -/
def validSortFields : List String :=
  ["id", "user_id", "product_id", "quantity", "total_price", "status",
   "created_at"]

/-- Sort normalization in `GetAllOrdersWithQuery` (database.go lines 338-349):
direction falls back to desc unless exactly asc or desc; a nonempty sort field
outside the allow-list falls back to created_at; an empty field stays empty. -/
def normalizeSort (sortBy ord : String) : String × String :=
  let ord2 := if ord ≠ "asc" ∧ ord ≠ "desc" then "desc" else ord
  let sortBy2 :=
    if sortBy ≠ "" ∧ !(validSortFields.contains sortBy) then "created_at"
    else sortBy
  (sortBy2, ord2)

/-- ORDER BY clause built by `FindAllWithPagination` (part_015 lines 122-126):
the requested pair when both parts are nonempty, else `created_at desc`. -/
def orderByClause (sortBy ord : String) : String × String :=
  if sortBy ≠ "" ∧ ord ≠ "" then (sortBy, ord) else ("created_at", "desc")

/-- Effective (field, direction) the returned page is ordered by, composing
the service normalization with the repository clause construction. -/
def effectiveSort (q : OrderQuery) : String × String :=
  orderByClause (normalizeSort q.sortBy q.order).1 (normalizeSort q.sortBy q.order).2

/-!
Concurrency model for CreateOrder (section 5 of the spec): all cross-request
coordination goes through the database; each call's stock check-then-write for
a product runs inside one database transaction, so the transactions of the
contending calls serialize.  A call is modelled as (a) a pre-check outside the
transaction (database.go lines 145-153) evaluated against the possibly stale
stock value `snapStock` the call happened to read, and (b) the atomic
transaction body, whose in-transaction guard is the Stock Ledger check of
`updateStockWithTx`.  On any error the transaction leaves the store unchanged.
-/

/-- One concurrent `CreateOrder` call for quantity `q` of product `pid`:
the racy pre-check against `snapStock`, then the atomic decrement. -/
def concCreate (ps : List Product) (pid : Nat) (q : Int) (snapStock : Int) :
    Except OrderError (List Product) :=
  if snapStock < q then .error .insufficientStock
  else updateStockWithTx ps pid (-q)

/-- Serialized execution of the contending calls, one snapshot value per call;
returns each call's result and the final product relation. -/
def runConcurrent (pid : Nat) (q : Int) :
    List Int → List Product → List (Except OrderError Unit) × List Product
  | [], ps => ([], ps)
  | snap :: rest, ps =>
      match concCreate ps pid q snap with
      | .ok ps2 =>
          let r := runConcurrent pid q rest ps2
          (.ok () :: r.1, r.2)
      | .error e =>
          let r := runConcurrent pid q rest ps
          (.error e :: r.1, r.2)

/-- Number of calls that succeeded. -/
def countOk (rs : List (Except OrderError Unit)) : Nat :=
  (rs.filter (fun r => match r with | .ok _ => true | .error _ => false)).length

/-- Invariant of claim C4: an order's total price is the sum of its line
subtotals, and each subtotal is the line's quantity times the unit price
captured at order time. -/
def orderInvariant (o : Order) : Prop :=
  o.totalPrice = (o.orderItems.map (fun it => it.subtotal)).sum ∧
    ∀ it ∈ o.orderItems, it.subtotal = it.quantity * it.price

/-- Sort semantics exactly as claim C9 words it (spec-side definition for the
refinement comparison): the effective field is the requested one when it is in
the allow-list and created_at otherwise; the effective direction is asc
exactly when explicitly requested as asc, and desc otherwise. -/
def claimedEffectiveSort (q : OrderQuery) : String × String :=
  (if validSortFields.contains q.sortBy then q.sortBy else "created_at",
   if q.order = "asc" then "asc" else "desc")

/-! Helper lemmas about the product relation. -/

theorem findProduct_setProductStock (ps : List Product) (pid pid2 : Nat) (v : Int) :
    findProduct (setProductStock ps pid v) pid2 =
      if pid2 = pid then (findProduct ps pid).map (fun p => { p with stock := v })
      else findProduct ps pid2 := by
  unfold findProduct setProductStock
  rw [List.find?_map]
  by_cases h : pid2 = pid
  · subst h
    simp only [if_pos rfl]
    have hcomp : ((fun p : Product => decide (p.id = pid2)) ∘
        (fun p : Product => if p.id = pid2 then { p with stock := v } else p)) =
        fun p : Product => decide (p.id = pid2) := by
      funext p
      by_cases hp : p.id = pid2 <;> simp [hp]
    rw [hcomp]
    cases hf : ps.find? (fun p => decide (p.id = pid2)) with
    | none => simp
    | some p0 =>
        have hp0 := List.find?_some hf
        simp only [decide_eq_true_eq] at hp0
        simp [hp0]
  · simp only [if_neg h]
    have hcomp : ((fun p : Product => decide (p.id = pid2)) ∘
        (fun p : Product => if p.id = pid then { p with stock := v } else p)) =
        fun p : Product => decide (p.id = pid2) := by
      funext p
      by_cases hp : p.id = pid <;> simp [hp]
    rw [hcomp]
    cases hf : ps.find? (fun p => decide (p.id = pid2)) with
    | none => simp
    | some p0 =>
        have hp0 := List.find?_some hf
        simp only [decide_eq_true_eq] at hp0
        have : p0.id ≠ pid := by
          rw [hp0]; exact h
        simp [this]

theorem stockOf_eq_of_findProduct {ps : List Product} {pid : Nat} {p : Product}
    (h : findProduct ps pid = some p) : stockOf ps pid = p.stock := by
  unfold stockOf
  rw [h]

theorem stockOf_setProductStock_same {ps : List Product} {pid : Nat} {p : Product}
    (h : findProduct ps pid = some p) (v : Int) :
    stockOf (setProductStock ps pid v) pid = v := by
  unfold stockOf
  rw [findProduct_setProductStock, if_pos rfl, h]
  rfl

theorem stockOf_setProductStock_other {ps : List Product} {pid pid2 : Nat}
    (h : pid2 ≠ pid) (v : Int) :
    stockOf (setProductStock ps pid v) pid2 = stockOf ps pid2 := by
  unfold stockOf
  rw [findProduct_setProductStock, if_neg h]

theorem findProduct_setProductStock_isSome (ps : List Product) (pid pid2 : Nat)
    (v : Int) :
    (findProduct (setProductStock ps pid v) pid2).isSome =
      (findProduct ps pid2).isSome := by
  rw [findProduct_setProductStock]
  by_cases h : pid2 = pid
  · subst h
    rw [if_pos rfl]
    cases findProduct ps pid2 <;> simp
  · rw [if_neg h]

theorem updateStockWithTx_ok {ps : List Product} {pid : Nat} {p : Product}
    (hp : findProduct ps pid = some p) {delta : Int} (hs : 0 ≤ p.stock + delta) :
    updateStockWithTx ps pid delta = .ok (setProductStock ps pid (p.stock + delta)) := by
  unfold updateStockWithTx
  rw [hp]
  simp only
  rw [if_neg (by omega)]

theorem updateStockWithTx_insufficient {ps : List Product} {pid : Nat} {p : Product}
    (hp : findProduct ps pid = some p) {delta : Int} (hs : p.stock + delta < 0) :
    updateStockWithTx ps pid delta = .error .insufficientStock := by
  unfold updateStockWithTx
  rw [hp]
  simp only
  rw [if_pos (by omega)]

theorem countOk_cons_ok (l : List (Except OrderError Unit)) :
    countOk (.ok () :: l) = countOk l + 1 := by
  simp [countOk, List.filter]

theorem countOk_cons_error (e : OrderError) (l : List (Except OrderError Unit)) :
    countOk (.error e :: l) = countOk l := by
  simp [countOk, List.filter]

theorem runConcurrent_singleton (pid : Nat) (nm : String) (pr q : Int)
    (hq : 0 < q) :
    ∀ (snaps : List Int) (s : Int), 0 ≤ s →
      (runConcurrent pid q snaps [⟨pid, nm, pr, s⟩]).2 =
          [⟨pid, nm, pr,
            s - q * (countOk (runConcurrent pid q snaps [⟨pid, nm, pr, s⟩]).1 : Int)⟩]
        ∧ 0 ≤ s - q * (countOk (runConcurrent pid q snaps [⟨pid, nm, pr, s⟩]).1 : Int)
        ∧ ∀ r ∈ (runConcurrent pid q snaps [⟨pid, nm, pr, s⟩]).1,
            r = .ok () ∨ r = .error .insufficientStock := by
  intro snaps
  induction snaps with
  | nil =>
      intro s hs
      simp only [runConcurrent, countOk, List.filter, List.length_nil]
      refine ⟨?_, by omega, by simp⟩
      simp
  | cons snap rest ih =>
      intro s hs
      have hfind : findProduct [(⟨pid, nm, pr, s⟩ : Product)] pid =
          some ⟨pid, nm, pr, s⟩ := by
        simp [findProduct]
      by_cases hsnap : snap < q
      · have hcc : concCreate [(⟨pid, nm, pr, s⟩ : Product)] pid q snap =
            .error .insufficientStock := by
          unfold concCreate
          rw [if_pos hsnap]
        simp only [runConcurrent, hcc]
        obtain ⟨h1, h2, h3⟩ := ih s hs
        refine ⟨?_, ?_, ?_⟩
        · rw [countOk_cons_error]; exact h1
        · rw [countOk_cons_error]; exact h2
        · intro r hr
          rcases List.mem_cons.mp hr with h | h
          · right; rw [h]
          · exact h3 r h
      · by_cases hlow : s - q < 0
        · have hcc : concCreate [(⟨pid, nm, pr, s⟩ : Product)] pid q snap =
              .error .insufficientStock := by
            unfold concCreate
            rw [if_neg hsnap]
            exact updateStockWithTx_insufficient hfind (by simpa using by omega)
          simp only [runConcurrent, hcc]
          obtain ⟨h1, h2, h3⟩ := ih s hs
          refine ⟨?_, ?_, ?_⟩
          · rw [countOk_cons_error]; exact h1
          · rw [countOk_cons_error]; exact h2
          · intro r hr
            rcases List.mem_cons.mp hr with h | h
            · right; rw [h]
            · exact h3 r h
        · have hset : setProductStock [(⟨pid, nm, pr, s⟩ : Product)] pid (s + -q) =
              [⟨pid, nm, pr, s - q⟩] := by
            simp [setProductStock]
            omega
          have hcc : concCreate [(⟨pid, nm, pr, s⟩ : Product)] pid q snap =
              .ok [⟨pid, nm, pr, s - q⟩] := by
            unfold concCreate
            rw [if_neg hsnap]
            rw [updateStockWithTx_ok hfind (by simpa using by omega)]
            rw [show (⟨pid, nm, pr, s⟩ : Product).stock + -q = s + -q from rfl, hset]
          simp only [runConcurrent, hcc]
          obtain ⟨h1, h2, h3⟩ := ih (s - q) (by omega)
          refine ⟨?_, ?_, ?_⟩
          · rw [countOk_cons_ok, h1]
            have hval : (s - q) -
                q * (countOk (runConcurrent pid q rest [⟨pid, nm, pr, s - q⟩]).1 : Int)
                = s - q * ((countOk (runConcurrent pid q rest
                    [⟨pid, nm, pr, s - q⟩]).1 + 1 : Nat) : Int) := by
              push_cast
              ring
            rw [hval]
          · rw [countOk_cons_ok]
            push_cast
            linarith
          · intro r hr
            rcases List.mem_cons.mp hr with h | h
            · left; rw [h]
            · exact h3 r h

/-- C1: for a single product with initial stock S, if N concurrent CreateOrder
calls each request quantity q with q ≤ S and N×q > S, then at most floor(S/q)
of the calls succeed, every other call fails with InsufficientStock, and the
product's final stock equals S − q×(number succeeded), which is ≥ 0:
concurrent orders never oversell stock. -/
theorem createOrder_no_oversell_concurrent
    (pid : Nat) (nm : String) (pr S q : Int) (snaps : List Int)
    (hq : 0 < q) (hqS : q ≤ S) (hN : S < (snaps.length : Int) * q) :
    ((countOk (runConcurrent pid q snaps [⟨pid, nm, pr, S⟩]).1 : Int) ≤ S / q)
    ∧ (∀ r ∈ (runConcurrent pid q snaps [⟨pid, nm, pr, S⟩]).1,
        r = .ok () ∨ r = .error .insufficientStock)
    ∧ (runConcurrent pid q snaps [⟨pid, nm, pr, S⟩]).2 =
        [⟨pid, nm, pr,
          S - q * (countOk (runConcurrent pid q snaps [⟨pid, nm, pr, S⟩]).1 : Int)⟩]
    ∧ 0 ≤ S - q * (countOk (runConcurrent pid q snaps [⟨pid, nm, pr, S⟩]).1 : Int) := by
  obtain ⟨h1, h2, h3⟩ := runConcurrent_singleton pid nm pr q hq snaps S (by omega)
  refine ⟨?_, h3, h1, h2⟩
  rw [Int.le_ediv_iff_mul_le hq, mul_comm]
  linarith

/-- Witness for C1 at a concrete input: stock 5, quantity 2, three contending
calls whose racy pre-checks all read the initial stock value 5. -/
theorem createOrder_no_oversell_concurrent_witness :
    ((countOk (runConcurrent 1 2 [5, 5, 5] [⟨1, "p", 7, 5⟩]).1 : Int) ≤ 5 / 2)
    ∧ (∀ r ∈ (runConcurrent 1 2 [5, 5, 5] [⟨1, "p", 7, 5⟩]).1,
        r = .ok () ∨ r = .error .insufficientStock)
    ∧ (runConcurrent 1 2 [5, 5, 5] [⟨1, "p", 7, 5⟩]).2 =
        [⟨1, "p", 7,
          5 - 2 * (countOk (runConcurrent 1 2 [5, 5, 5] [⟨1, "p", 7, 5⟩]).1 : Int)⟩]
    ∧ 0 ≤ 5 - 2 * (countOk (runConcurrent 1 2 [5, 5, 5] [⟨1, "p", 7, 5⟩]).1 : Int) :=
  createOrder_no_oversell_concurrent 1 "p" 7 5 2 [5, 5, 5]
    (by decide) (by decide) (by decide)

/-- C2: CreateOrder is all-or-nothing: if any step fails (validation, product
lookup, stock check, or any per-product stock decrement inside the
transaction), the database state after the call equals the state before it —
no order row is persisted and no product's stock has changed. -/
theorem createOrder_atomic (s : DBState) (input : CreateOrderRequest)
    (userID newID : Nat) (e : OrderError)
    (h : (createOrder s input userID newID).1 = .error e) :
    (createOrder s input userID newID).2 = s := by
  unfold createOrder at h ⊢
  by_cases h1 : !validateCreateRequest input
  · rw [if_pos h1]
  · rw [if_neg h1] at h ⊢
    by_cases h2 : userID = 0
    · rw [if_pos h2]
    · rw [if_neg h2] at h ⊢
      cases hb : buildOrderItems s.products input.items with
      | error e2 => rfl
      | ok pr =>
          rw [hb] at h
          obtain ⟨items, total⟩ := pr
          cases hc : checkStock s.products (stockUpdates input.items) with
          | error e3 => rfl
          | ok u =>
              rw [hc] at h
              cases ha : applyStockUpdates s.products (stockUpdates input.items) with
              | error e4 => rfl
              | ok ps2 =>
                  rw [ha] at h
                  simp at h

/-- Witness for C2: two lines of the same product (stock 1) requesting one
unit each; the coalesced quantity 2 exceeds the stock, the call fails with
InsufficientStock, and the state is unchanged. -/
theorem createOrder_atomic_witness :
    (createOrder ⟨[⟨1, "p", 5, 1⟩], []⟩ ⟨[⟨1, 1⟩, ⟨1, 1⟩]⟩ 1 1).1 =
        .error .insufficientStock
    ∧ (createOrder ⟨[⟨1, "p", 5, 1⟩], []⟩ ⟨[⟨1, 1⟩, ⟨1, 1⟩]⟩ 1 1).2 =
        ⟨[⟨1, "p", 5, 1⟩], []⟩ :=
  ⟨by decide,
   createOrder_atomic ⟨[⟨1, "p", 5, 1⟩], []⟩ ⟨[⟨1, 1⟩, ⟨1, 1⟩]⟩ 1 1
     .insufficientStock (by decide)⟩

/-- Stock restoration succeeds whenever every referenced product row exists and
the quantities and stocks are nonnegative, and it adds, to every product, the
summed quantities of the line items referencing it. -/
theorem restoreStockForItems_ok :
    ∀ (items : List OrderItem) (ps : List Product),
      (∀ it ∈ items, (findProduct ps it.productID).isSome = true ∧
          0 ≤ it.quantity ∧ 0 ≤ stockOf ps it.productID) →
      ∃ ps2, restoreStockForItems ps items = .ok ps2 ∧
        ∀ pid, stockOf ps2 pid = stockOf ps pid +
          ((items.filter (fun it => it.productID = pid)).map
            (fun it => it.quantity)).sum
  | [], ps, _ => ⟨ps, rfl, fun pid => by simp⟩
  | item :: rest, ps, h => by
      obtain ⟨hsome, hqty, hstk⟩ := h item (List.mem_cons_self item rest)
      obtain ⟨p, hp⟩ := Option.isSome_iff_exists.mp hsome
      have hpstock : p.stock = stockOf ps item.productID :=
        (stockOf_eq_of_findProduct hp).symm
      have hok : updateStockWithTx ps item.productID item.quantity =
          .ok (setProductStock ps item.productID (p.stock + item.quantity)) :=
        updateStockWithTx_ok hp (by omega)
      set ps1 := setProductStock ps item.productID (p.stock + item.quantity) with hps1
      have hstockOf1 : ∀ pid, stockOf ps1 pid =
          stockOf ps pid + (if item.productID = pid then item.quantity else 0) := by
        intro pid
        by_cases hpid : pid = item.productID
        · subst hpid
          rw [hps1, stockOf_setProductStock_same hp, if_pos rfl]
          omega
        · rw [hps1, stockOf_setProductStock_other hpid,
            if_neg (fun hc => hpid hc.symm)]
          omega
      have hrest : ∀ it ∈ rest, (findProduct ps1 it.productID).isSome = true ∧
          0 ≤ it.quantity ∧ 0 ≤ stockOf ps1 it.productID := by
        intro it hit
        obtain ⟨h1, h2, h3⟩ := h it (List.mem_cons_of_mem item hit)
        refine ⟨?_, h2, ?_⟩
        · rw [hps1, findProduct_setProductStock_isSome]
          exact h1
        · rw [hstockOf1 it.productID]
          by_cases hpid : item.productID = it.productID
          · rw [if_pos hpid]
            omega
          · rw [if_neg hpid]
            omega
      obtain ⟨ps2, hps2, hsum⟩ := restoreStockForItems_ok rest ps1 hrest
      refine ⟨ps2, ?_, ?_⟩
      · unfold restoreStockForItems
        rw [hok]
        exact hps2
      · intro pid
        rw [hsum pid, hstockOf1 pid, List.filter_cons]
        by_cases hpid : item.productID = pid
        · simp [hpid]
          omega
        · simp [hpid]

/-- C10: UpdateOrder on an existing order owned by the caller with an absent
status field succeeds, returns the stored order with every field unchanged,
and performs no database write and no stock mutation. -/
theorem updateOrder_noStatus_noop (s : DBState) (id userID : Nat) (ord : Order)
    (hfind : findOrder s id = some ord) (hown : ord.userID = userID) :
    updateOrder s id ⟨none⟩ userID = (.ok ord, s) := by
  unfold updateOrder
  rw [show validateUpdateRequest ⟨none⟩ = true from rfl, hfind]
  simp [hown, validateStatusTransition]

/-- Witness for C10: a pending order owned by user 7, updated by user 7 with
no status in the request. -/
theorem updateOrder_noStatus_noop_witness :
    updateOrder ⟨[], [⟨1, 7, 0, StatusPending, []⟩]⟩ 1 ⟨none⟩ 7 =
      (.ok ⟨1, 7, 0, StatusPending, []⟩, ⟨[], [⟨1, 7, 0, StatusPending, []⟩]⟩) :=
  updateOrder_noStatus_noop ⟨[], [⟨1, 7, 0, StatusPending, []⟩]⟩ 1 7
    ⟨1, 7, 0, StatusPending, []⟩ (by decide) (by decide)

/-- C8: for every existing order and every userID different from its owning
user, UpdateOrder fails with NotAuthorizedToUpdate and the state is unchanged;
ownership is the sole authorization condition (the failure holds for every
non-owner, with no override). -/
theorem updateOrder_ownership (s : DBState) (id userID : Nat) (ord : Order)
    (input : UpdateOrderRequest) (hval : validateUpdateRequest input = true)
    (hfind : findOrder s id = some ord) (hown : ord.userID ≠ userID) :
    updateOrder s id input userID = (.error .notAuthorizedToUpdate, s) := by
  unfold updateOrder
  rw [hval, hfind]
  simp [hown]

/-- Witness for C8: an order owned by user 7 updated by user 8. -/
theorem updateOrder_ownership_witness :
    updateOrder ⟨[], [⟨1, 7, 0, StatusPending, []⟩]⟩ 1 ⟨none⟩ 8 =
      (.error .notAuthorizedToUpdate, ⟨[], [⟨1, 7, 0, StatusPending, []⟩]⟩) :=
  updateOrder_ownership ⟨[], [⟨1, 7, 0, StatusPending, []⟩]⟩ 1 8
    ⟨1, 7, 0, StatusPending, []⟩ ⟨none⟩ (by decide) (by decide) (by decide)

/-- Evaluation of UpdateOrder up to the status-transition check, for a
well-formed request on an existing order owned by the caller. -/
theorem updateOrder_eq_of_owned (s : DBState) (id userID : Nat) (ord : Order)
    (st : OrderStatus) (hval : validStatusString st = true)
    (hfind : findOrder s id = some ord) (hown : ord.userID = userID) :
    updateOrder s id ⟨some st⟩ userID =
      match validateStatusTransition ord (some st) with
      | .error e => (.error e, s)
      | .ok _ => updateOrderStatus s ord st := by
  unfold updateOrder
  rw [show validateUpdateRequest ⟨some st⟩ = validStatusString st from rfl,
    hval, hfind]
  simp [hown]

/-- C5: UpdateOrder enforces the status state machine: on a PAID order,
requesting PENDING fails with CannotChangePaidOrderToPending; on a CANCELLED
order, requesting any valid status other than CANCELLED fails with
CannotChangeCancelledOrderStatus; PENDING→PAID, PENDING→CANCELLED and
PAID→CANCELLED succeed; in every forbidden case the state (hence the stored
status) is unchanged. -/
theorem updateOrder_status_machine (s : DBState) (id userID : Nat) (ord : Order)
    (hfind : findOrder s id = some ord) (hown : ord.userID = userID)
    (hitems : ∀ it ∈ ord.orderItems,
      (findProduct s.products it.productID).isSome = true ∧
        0 ≤ it.quantity ∧ 0 ≤ stockOf s.products it.productID) :
    (ord.status = StatusPaid →
        updateOrder s id ⟨some StatusPending⟩ userID =
          (.error .cannotChangePaidOrderToPending, s))
    ∧ (ord.status = StatusCancelled →
        ∀ st, validStatusString st = true → st ≠ StatusCancelled →
          updateOrder s id ⟨some st⟩ userID =
            (.error .cannotChangeCancelledOrderStatus, s))
    ∧ (ord.status = StatusPending →
        (updateOrder s id ⟨some StatusPaid⟩ userID).1 =
          .ok { ord with status := StatusPaid })
    ∧ (ord.status = StatusPending →
        (updateOrder s id ⟨some StatusCancelled⟩ userID).1 =
          .ok { ord with status := StatusCancelled })
    ∧ (ord.status = StatusPaid →
        (updateOrder s id ⟨some StatusCancelled⟩ userID).1 =
          .ok { ord with status := StatusCancelled }) := by
  refine ⟨?_, ?_, ?_, ?_, ?_⟩
  · intro hstat
    rw [updateOrder_eq_of_owned s id userID ord StatusPending rfl hfind hown]
    have hv : validateStatusTransition ord (some StatusPending) =
        .error .cannotChangePaidOrderToPending := by
      simp [validateStatusTransition, hstat, validStatusString,
        StatusPending, StatusPaid, StatusCancelled]
    rw [hv]
  · intro hstat st hst hne
    rw [updateOrder_eq_of_owned s id userID ord st hst hfind hown]
    have hv : validateStatusTransition ord (some st) =
        .error .cannotChangeCancelledOrderStatus := by
      have hnp : ord.status ≠ StatusPaid := by
        rw [hstat]
        decide
      simp [validateStatusTransition, hst, hstat, hne,
        StatusPending, StatusPaid, StatusCancelled]
      rcases (by simpa [validStatusString] using hst :
          (st = StatusPending ∨ st = StatusPaid) ∨ st = StatusCancelled) with
        (h | h) | h <;> simp [h, StatusPending, StatusPaid, StatusCancelled] at hne ⊢
    rw [hv]
  · intro hstat
    rw [updateOrder_eq_of_owned s id userID ord StatusPaid rfl hfind hown]
    have hv : validateStatusTransition ord (some StatusPaid) = .ok () := by
      simp [validateStatusTransition, hstat, validStatusString,
        StatusPending, StatusPaid, StatusCancelled]
    rw [hv]
    simp [updateOrderStatus, StatusPaid, StatusCancelled]
  · intro hstat
    rw [updateOrder_eq_of_owned s id userID ord StatusCancelled rfl hfind hown]
    have hv : validateStatusTransition ord (some StatusCancelled) = .ok () := by
      simp [validateStatusTransition, hstat, validStatusString,
        StatusPending, StatusPaid, StatusCancelled]
    rw [hv]
    obtain ⟨ps2, hps2, _⟩ := restoreStockForItems_ok ord.orderItems s.products hitems
    unfold updateOrderStatus
    rw [if_pos ⟨rfl, by rw [hstat]; decide⟩, hps2]
  · intro hstat
    rw [updateOrder_eq_of_owned s id userID ord StatusCancelled rfl hfind hown]
    have hv : validateStatusTransition ord (some StatusCancelled) = .ok () := by
      simp [validateStatusTransition, hstat, validStatusString,
        StatusPending, StatusPaid, StatusCancelled]
    rw [hv]
    obtain ⟨ps2, hps2, _⟩ := restoreStockForItems_ok ord.orderItems s.products hitems
    unfold updateOrderStatus
    rw [if_pos ⟨rfl, by rw [hstat]; decide⟩, hps2]

/-- Witness for C5: a PAID order owned by user 7 with one line item of
product 1 (which exists with stock 0). -/
theorem updateOrder_status_machine_witness :
    ((⟨1, 7, 10, StatusPaid, [⟨1, 1, 1, 2, 5, 10⟩]⟩ : Order).status = StatusPaid →
        updateOrder ⟨[⟨1, "p", 5, 0⟩], [⟨1, 7, 10, StatusPaid, [⟨1, 1, 1, 2, 5, 10⟩]⟩]⟩
            1 ⟨some StatusPending⟩ 7 =
          (.error .cannotChangePaidOrderToPending,
           ⟨[⟨1, "p", 5, 0⟩], [⟨1, 7, 10, StatusPaid, [⟨1, 1, 1, 2, 5, 10⟩]⟩]⟩))
    ∧ ((⟨1, 7, 10, StatusPaid, [⟨1, 1, 1, 2, 5, 10⟩]⟩ : Order).status = StatusCancelled →
        ∀ st, validStatusString st = true → st ≠ StatusCancelled →
          updateOrder ⟨[⟨1, "p", 5, 0⟩], [⟨1, 7, 10, StatusPaid, [⟨1, 1, 1, 2, 5, 10⟩]⟩]⟩
              1 ⟨some st⟩ 7 =
            (.error .cannotChangeCancelledOrderStatus,
             ⟨[⟨1, "p", 5, 0⟩], [⟨1, 7, 10, StatusPaid, [⟨1, 1, 1, 2, 5, 10⟩]⟩]⟩))
    ∧ ((⟨1, 7, 10, StatusPaid, [⟨1, 1, 1, 2, 5, 10⟩]⟩ : Order).status = StatusPending →
        (updateOrder ⟨[⟨1, "p", 5, 0⟩], [⟨1, 7, 10, StatusPaid, [⟨1, 1, 1, 2, 5, 10⟩]⟩]⟩
            1 ⟨some StatusPaid⟩ 7).1 =
          .ok { (⟨1, 7, 10, StatusPaid, [⟨1, 1, 1, 2, 5, 10⟩]⟩ : Order) with
            status := StatusPaid })
    ∧ ((⟨1, 7, 10, StatusPaid, [⟨1, 1, 1, 2, 5, 10⟩]⟩ : Order).status = StatusPending →
        (updateOrder ⟨[⟨1, "p", 5, 0⟩], [⟨1, 7, 10, StatusPaid, [⟨1, 1, 1, 2, 5, 10⟩]⟩]⟩
            1 ⟨some StatusCancelled⟩ 7).1 =
          .ok { (⟨1, 7, 10, StatusPaid, [⟨1, 1, 1, 2, 5, 10⟩]⟩ : Order) with
            status := StatusCancelled })
    ∧ ((⟨1, 7, 10, StatusPaid, [⟨1, 1, 1, 2, 5, 10⟩]⟩ : Order).status = StatusPaid →
        (updateOrder ⟨[⟨1, "p", 5, 0⟩], [⟨1, 7, 10, StatusPaid, [⟨1, 1, 1, 2, 5, 10⟩]⟩]⟩
            1 ⟨some StatusCancelled⟩ 7).1 =
          .ok { (⟨1, 7, 10, StatusPaid, [⟨1, 1, 1, 2, 5, 10⟩]⟩ : Order) with
            status := StatusCancelled }) :=
  updateOrder_status_machine
    ⟨[⟨1, "p", 5, 0⟩], [⟨1, 7, 10, StatusPaid, [⟨1, 1, 1, 2, 5, 10⟩]⟩]⟩ 1 7
    ⟨1, 7, 10, StatusPaid, [⟨1, 1, 1, 2, 5, 10⟩]⟩
    (by decide) (by decide) (by decide)

/-- C6: transitioning an order into CANCELLED from any non-cancelled state
increments each referenced product's stock by the corresponding line
quantities in the same transaction as the status write; every other permitted
transition (including re-asserting the current status and
CANCELLED→CANCELLED) leaves every product's stock unchanged. -/
theorem updateOrder_cancel_restores_stock (s : DBState) (id userID : Nat)
    (ord : Order) (hfind : findOrder s id = some ord)
    (hown : ord.userID = userID)
    (hitems : ∀ it ∈ ord.orderItems,
      (findProduct s.products it.productID).isSome = true ∧
        0 ≤ it.quantity ∧ 0 ≤ stockOf s.products it.productID) :
    (ord.status ≠ StatusCancelled →
      ∃ ps2, updateOrder s id ⟨some StatusCancelled⟩ userID =
          (.ok { ord with status := StatusCancelled },
           ⟨ps2, setOrderStatus s.orders ord.id StatusCancelled⟩)
        ∧ ∀ pid, stockOf ps2 pid = stockOf s.products pid +
            ((ord.orderItems.filter (fun it => it.productID = pid)).map
              (fun it => it.quantity)).sum)
    ∧ (∀ st, validStatusString st = true →
        ¬(st = StatusCancelled ∧ ord.status ≠ StatusCancelled) →
        validateStatusTransition ord (some st) = .ok () →
        (updateOrder s id ⟨some st⟩ userID).2.products = s.products) := by
  constructor
  · intro hstat
    rw [updateOrder_eq_of_owned s id userID ord StatusCancelled rfl hfind hown]
    have hv : validateStatusTransition ord (some StatusCancelled) = .ok () := by
      simp [validateStatusTransition, hstat, validStatusString,
        StatusPending, StatusPaid, StatusCancelled]
    rw [hv]
    obtain ⟨ps2, hps2, hsum⟩ :=
      restoreStockForItems_ok ord.orderItems s.products hitems
    refine ⟨ps2, ?_, hsum⟩
    unfold updateOrderStatus
    rw [if_pos ⟨rfl, hstat⟩, hps2]
  · intro st hst hnc hperm
    rw [updateOrder_eq_of_owned s id userID ord st hst hfind hown, hperm]
    unfold updateOrderStatus
    rw [if_neg hnc]

/-- Witness for C6: a PENDING order for 3 units of product 1 whose stock is
currently 7; cancellation brings the stock back to 10. -/
theorem updateOrder_cancel_restores_stock_witness :
    ((⟨1, 7, 15, StatusPending, [⟨1, 1, 1, 3, 5, 15⟩]⟩ : Order).status ≠ StatusCancelled →
      ∃ ps2, updateOrder ⟨[⟨1, "p", 5, 7⟩], [⟨1, 7, 15, StatusPending, [⟨1, 1, 1, 3, 5, 15⟩]⟩]⟩
            1 ⟨some StatusCancelled⟩ 7 =
          (.ok { (⟨1, 7, 15, StatusPending, [⟨1, 1, 1, 3, 5, 15⟩]⟩ : Order) with
                   status := StatusCancelled },
           ⟨ps2, setOrderStatus [⟨1, 7, 15, StatusPending, [⟨1, 1, 1, 3, 5, 15⟩]⟩]
                   1 StatusCancelled⟩)
        ∧ ∀ pid, stockOf ps2 pid = stockOf [⟨1, "p", 5, 7⟩] pid +
            (((⟨1, 7, 15, StatusPending, [⟨1, 1, 1, 3, 5, 15⟩]⟩ : Order).orderItems.filter
                (fun it => it.productID = pid)).map (fun it => it.quantity)).sum)
    ∧ (∀ st, validStatusString st = true →
        ¬(st = StatusCancelled ∧
          (⟨1, 7, 15, StatusPending, [⟨1, 1, 1, 3, 5, 15⟩]⟩ : Order).status ≠ StatusCancelled) →
        validateStatusTransition ⟨1, 7, 15, StatusPending, [⟨1, 1, 1, 3, 5, 15⟩]⟩
            (some st) = .ok () →
        (updateOrder ⟨[⟨1, "p", 5, 7⟩], [⟨1, 7, 15, StatusPending, [⟨1, 1, 1, 3, 5, 15⟩]⟩]⟩
            1 ⟨some st⟩ 7).2.products = [⟨1, "p", 5, 7⟩]) :=
  updateOrder_cancel_restores_stock
    ⟨[⟨1, "p", 5, 7⟩], [⟨1, 7, 15, StatusPending, [⟨1, 1, 1, 3, 5, 15⟩]⟩]⟩ 1 7
    ⟨1, 7, 15, StatusPending, [⟨1, 1, 1, 3, 5, 15⟩]⟩
    (by decide) (by decide) (by decide)

/-- C7: evaluation of DeleteOrder at the failing input. The claim (and spec
section 4.1) says stock is restored and the order with its line items removed
in one transaction; on the code, for an existing order with a line item
(every created order has at least one), the final row delete violates the
non-cascading foreign key from order_items (migrations/000004), the
transaction rolls back, and the call returns the storage error with the
database unchanged: stock is not restored and nothing is removed. -/
theorem deleteOrder_fk_violation :
    deleteOrder ⟨[⟨1, "p", 5, 10⟩], [⟨1, 7, 15, StatusCancelled, [⟨1, 1, 1, 3, 5, 15⟩]⟩]⟩ 1 =
      (.error .foreignKeyViolation,
       ⟨[⟨1, "p", 5, 10⟩], [⟨1, 7, 15, StatusCancelled, [⟨1, 1, 1, 3, 5, 15⟩]⟩]⟩) := by
  decide

/-- The line items built by the first CreateOrder loop satisfy the price
invariant: the accumulated total is the sum of the subtotals, and each
subtotal is quantity times the captured unit price. -/
theorem buildOrderItems_ok_invariant :
    ∀ (items : List OrderItemInput) (ps : List Product) (ois : List OrderItem)
      (total : Int), buildOrderItems ps items = .ok (ois, total) →
      total = (ois.map (fun it => it.subtotal)).sum ∧
        ∀ it ∈ ois, it.subtotal = it.quantity * it.price
  | [], ps, ois, total, h => by
      unfold buildOrderItems at h
      injection h with h
      injection h with h1 h2
      subst h1
      subst h2
      simp
  | item :: rest, ps, ois, total, h => by
      unfold buildOrderItems at h
      cases hf : findProduct ps item.productID with
      | none => rw [hf] at h; exact absurd h (by simp)
      | some p =>
          rw [hf] at h
          cases hb : buildOrderItems ps rest with
          | error e => rw [hb] at h; exact absurd h (by simp)
          | ok pr =>
              rw [hb] at h
              obtain ⟨ois2, total2⟩ := pr
              injection h with h
              injection h with h1 h2
              subst h1
              subst h2
              obtain ⟨ht2, hinv2⟩ :=
                buildOrderItems_ok_invariant rest ps ois2 total2 hb
              constructor
              · simp [ht2]
              · intro it hit
                rcases List.mem_cons.mp hit with hh | hh
                · subst hh
                  rfl
                · exact hinv2 it hh

/-- Case analysis on the state CreateOrder leaves behind: either unchanged, or
the built order was appended and the stock updates applied. -/
theorem createOrder_cases (s : DBState) (input : CreateOrderRequest)
    (uid nid : Nat) :
    (createOrder s input uid nid).2 = s ∨
      ∃ ois total ps2,
        buildOrderItems s.products input.items = .ok (ois, total) ∧
        (createOrder s input uid nid).2 =
          ⟨ps2, s.orders ++ [⟨nid, uid, total, StatusPending, ois⟩]⟩ := by
  unfold createOrder
  by_cases h1 : !validateCreateRequest input
  · rw [if_pos h1]; left; rfl
  · rw [if_neg h1]
    by_cases h2 : uid = 0
    · rw [if_pos h2]; left; rfl
    · rw [if_neg h2]
      cases hb : buildOrderItems s.products input.items with
      | error e => left; rfl
      | ok pr =>
          obtain ⟨ois, total⟩ := pr
          cases hc : checkStock s.products (stockUpdates input.items) with
          | error e => left; rfl
          | ok u =>
              cases ha : applyStockUpdates s.products (stockUpdates input.items) with
              | error e => left; rfl
              | ok ps2 =>
                  right
                  exact ⟨ois, total, ps2, rfl, rfl⟩

/-- Case analysis on the orders relation UpdateOrder leaves behind: either
unchanged, or one order's status column was rewritten. -/
theorem updateOrder_orders_cases (s : DBState) (id : Nat)
    (input : UpdateOrderRequest) (uid : Nat) :
    (updateOrder s id input uid).2.orders = s.orders ∨
      ∃ oid st, (updateOrder s id input uid).2.orders =
        setOrderStatus s.orders oid st := by
  unfold updateOrder
  split
  · left; rfl
  split
  · left; rfl
  split
  · left; rfl
  split
  · left; rfl
  split
  · unfold updateOrderStatus
    split
    · split
      · left; rfl
      · right; exact ⟨_, _, rfl⟩
    · right; exact ⟨_, _, rfl⟩
  · left; rfl

/-- Case analysis on the orders relation DeleteOrder leaves behind. -/
theorem deleteOrder_orders_cases (s : DBState) (id : Nat) :
    (deleteOrder s id).2.orders = s.orders ∨
      (deleteOrder s id).2.orders = removeOrder s.orders id := by
  unfold deleteOrder
  split
  · left; rfl
  split
  · left; rfl
  split
  · right; rfl
  · left; rfl

/-- Rewriting a status column preserves the price invariant. -/
theorem orderInvariant_of_mem_setOrderStatus {orders : List Order} {oid : Nat}
    {st : OrderStatus} (h : ∀ o ∈ orders, orderInvariant o) :
    ∀ o ∈ setOrderStatus orders oid st, orderInvariant o := by
  intro o ho
  unfold setOrderStatus at ho
  obtain ⟨o0, ho0, rfl⟩ := List.mem_map.mp ho
  by_cases hid : o0.id = oid
  · rw [if_pos hid]
    exact h o0 ho0
  · rw [if_neg hid]
    exact h o0 ho0

/-- C4: for every order at every observable state, Order.TotalPrice equals the
sum of Subtotal over its line items, each Subtotal being quantity times the
unit price captured at order time; creation establishes the invariant for the
new order and creation, status update and deletion all preserve it for every
stored order. -/
theorem orders_totalPrice_invariant (s : DBState)
    (hinv : ∀ o ∈ s.orders, orderInvariant o) :
    (∀ input userID newID,
      ∀ o ∈ (createOrder s input userID newID).2.orders, orderInvariant o)
    ∧ (∀ id input userID,
      ∀ o ∈ (updateOrder s id input userID).2.orders, orderInvariant o)
    ∧ (∀ id, ∀ o ∈ (deleteOrder s id).2.orders, orderInvariant o) := by
  refine ⟨?_, ?_, ?_⟩
  · intro input uid nid o ho
    rcases createOrder_cases s input uid nid with h | ⟨ois, total, ps2, hb, h⟩
    · rw [h] at ho
      exact hinv o ho
    · rw [h] at ho
      simp only [List.mem_append, List.mem_singleton] at ho
      rcases ho with ho | ho
      · exact hinv o ho
      · subst ho
        exact buildOrderItems_ok_invariant input.items s.products ois total hb
  · intro id input uid o ho
    rcases updateOrder_orders_cases s id input uid with h | ⟨oid, st, h⟩
    · rw [h] at ho
      exact hinv o ho
    · rw [h] at ho
      exact orderInvariant_of_mem_setOrderStatus hinv o ho
  · intro id o ho
    rcases deleteOrder_orders_cases s id with h | h
    · rw [h] at ho
      exact hinv o ho
    · rw [h] at ho
      exact hinv o (List.mem_of_mem_filter ho)

/-- Witness for C4: a store with one product and one well-formed stored
order. -/
theorem orders_totalPrice_invariant_witness :
    (∀ input userID newID,
      ∀ o ∈ (createOrder ⟨[⟨1, "p", 5, 10⟩], [⟨1, 7, 15, StatusPending, [⟨1, 1, 1, 3, 5, 15⟩]⟩]⟩
          input userID newID).2.orders, orderInvariant o)
    ∧ (∀ id input userID,
      ∀ o ∈ (updateOrder ⟨[⟨1, "p", 5, 10⟩], [⟨1, 7, 15, StatusPending, [⟨1, 1, 1, 3, 5, 15⟩]⟩]⟩
          id input userID).2.orders, orderInvariant o)
    ∧ (∀ id,
      ∀ o ∈ (deleteOrder ⟨[⟨1, "p", 5, 10⟩], [⟨1, 7, 15, StatusPending, [⟨1, 1, 1, 3, 5, 15⟩]⟩]⟩
          id).2.orders, orderInvariant o) :=
  orders_totalPrice_invariant
    ⟨[⟨1, "p", 5, 10⟩], [⟨1, 7, 15, StatusPending, [⟨1, 1, 1, 3, 5, 15⟩]⟩]⟩
    (by intro o ho
        simp only [List.mem_singleton] at ho
        subst ho
        exact ⟨by simp, by simp⟩)

/-- C9 counterexample: for the query with an empty sort field and direction
asc, the claim predicts ordering by created_at ascending, but the code orders
by created_at descending (FindAllWithPagination falls back to the full clause
"created_at desc" whenever the normalized sort field is empty, discarding the
requested direction). -/
theorem effectiveSort_empty_asc_counterexample :
    effectiveSort ⟨1, 10, "", "asc"⟩ = ("created_at", "desc")
    ∧ claimedEffectiveSort ⟨1, 10, "", "asc"⟩ = ("created_at", "asc")
    ∧ effectiveSort ⟨1, 10, "", "asc"⟩ ≠ claimedEffectiveSort ⟨1, 10, "", "asc"⟩ := by
  refine ⟨rfl, rfl, ?_⟩
  decide

/-- C9 amended: the effective sort field is the requested field when it is in
the allow-list and created_at otherwise; the effective direction is asc
exactly when explicitly requested as asc — except that when the requested
sort field is empty, the ordering is created_at descending regardless of the
requested direction. -/
theorem effectiveSort_spec (q : OrderQuery) :
    effectiveSort q =
      (if validSortFields.contains q.sortBy then q.sortBy else "created_at",
       if q.sortBy = "" then "desc"
       else if q.order = "asc" then "asc" else "desc") := by
  unfold effectiveSort normalizeSort orderByClause
  by_cases hempty : q.sortBy = ""
  · have hnmem : ¬ q.sortBy ∈ validSortFields := by
      rw [hempty]
      decide
    by_cases ha : q.order = "asc"
    · simp [hempty, hnmem, ha, validSortFields]
    · by_cases hd : q.order = "desc" <;>
        simp [hempty, hnmem, ha, hd, validSortFields]
  · by_cases hmem : q.sortBy ∈ validSortFields
    · by_cases ha : q.order = "asc"
      · simp [hempty, hmem, ha]
      · by_cases hd : q.order = "desc" <;> simp [hempty, hmem, ha, hd]
    · by_cases ha : q.order = "asc"
      · simp [hempty, hmem, ha]
      · by_cases hd : q.order = "desc" <;> simp [hempty, hmem, ha, hd]

/-! Support lemmas for claim C3 (coalesced stock check). -/

theorem buildOrderItems_exists :
    ∀ (items : List OrderItemInput) (ps : List Product),
      (∀ it ∈ items, (findProduct ps it.productID).isSome = true) →
      ∃ ois total, buildOrderItems ps items = .ok (ois, total)
  | [], ps, _ => ⟨[], 0, rfl⟩
  | item :: rest, ps, h => by
      obtain ⟨p, hp⟩ := Option.isSome_iff_exists.mp
        (h item (List.mem_cons_self item rest))
      obtain ⟨ois, total, hrest⟩ := buildOrderItems_exists rest ps
        (fun it hit => h it (List.mem_cons_of_mem item hit))
      refine ⟨{ id := 0, orderID := 0, productID := item.productID,
                quantity := item.quantity, price := p.price,
                subtotal := item.quantity * p.price } :: ois,
              item.quantity * p.price + total, ?_⟩
      unfold buildOrderItems
      rw [hp, hrest]

theorem distinctProductIDs_nodup (items : List OrderItemInput) :
    (distinctProductIDs items).Nodup :=
  List.nodup_dedup _

theorem mem_distinctProductIDs (items : List OrderItemInput) (pid : Nat) :
    pid ∈ distinctProductIDs items ↔ ∃ it ∈ items, it.productID = pid := by
  unfold distinctProductIDs
  rw [List.mem_dedup, List.mem_map]

theorem stockUpdates_keys (items : List OrderItemInput) :
    (stockUpdates items).map Prod.fst = distinctProductIDs items := by
  unfold stockUpdates
  rw [List.map_map]
  exact List.map_id _

theorem mem_stockUpdates (items : List OrderItemInput) (pq : Nat × Int) :
    pq ∈ stockUpdates items ↔
      (∃ it ∈ items, it.productID = pq.1) ∧ pq.2 = coalescedQty items pq.1 := by
  unfold stockUpdates
  rw [List.mem_map]
  constructor
  · rintro ⟨k, hk, rfl⟩
    exact ⟨(mem_distinctProductIDs items k).mp hk, rfl⟩
  · rintro ⟨href, hq⟩
    refine ⟨pq.1, (mem_distinctProductIDs items pq.1).mpr href, ?_⟩
    obtain ⟨a, b⟩ := pq
    simp only at hq
    rw [hq]

theorem coalescedQty_eq_zero {items : List OrderItemInput} {pid : Nat}
    (h : ∀ it ∈ items, ¬ it.productID = pid) : coalescedQty items pid = 0 := by
  unfold coalescedQty
  rw [List.filter_eq_nil_iff.mpr (by simpa using h)]
  rfl

theorem filter_eq_of_nodup :
    ∀ {l : List Nat}, l.Nodup → ∀ (pid : Nat),
      l.filter (fun k => k = pid) = if pid ∈ l then [pid] else []
  | [], _, pid => by simp
  | a :: l, h, pid => by
      obtain ⟨ha, hl⟩ := List.nodup_cons.mp h
      rw [List.filter_cons]
      by_cases hap : a = pid
      · subst hap
        rw [if_pos (by simp), filter_eq_of_nodup hl a, if_neg ha,
          if_pos (List.mem_cons_self a l)]
      · rw [if_neg (by simpa using hap), filter_eq_of_nodup hl pid]
        by_cases hm : pid ∈ l
        · rw [if_pos hm, if_pos (List.mem_cons_of_mem a hm)]
        · rw [if_neg hm, if_neg (by
            intro hc
            rcases List.mem_cons.mp hc with hc | hc
            · exact hap hc.symm
            · exact hm hc)]

theorem qtyIn_stockUpdates (items : List OrderItemInput) (pid : Nat) :
    (((stockUpdates items).filter (fun pq => pq.1 = pid)).map
      (fun pq => pq.2)).sum = coalescedQty items pid := by
  unfold stockUpdates
  rw [List.filter_map]
  have hcomp : ((fun pq : Nat × Int => decide (pq.1 = pid)) ∘
      (fun k => (k, coalescedQty items k))) = fun k => decide (k = pid) := by
    funext k
    rfl
  rw [hcomp, filter_eq_of_nodup (distinctProductIDs_nodup items) pid]
  by_cases hm : pid ∈ distinctProductIDs items
  · rw [if_pos hm]
    simp
  · rw [if_neg hm]
    rw [mem_distinctProductIDs] at hm
    push_neg at hm
    rw [coalescedQty_eq_zero hm]
    rfl

theorem checkStock_error_of_exists :
    ∀ (L : List (Nat × Int)) (ps : List Product),
      (∀ pq ∈ L, (findProduct ps pq.1).isSome = true) →
      (∃ pq ∈ L, stockOf ps pq.1 < pq.2) →
      checkStock ps L = .error .insufficientStock
  | [], ps, _, hex => by simp at hex
  | (pid, qty) :: rest, ps, hall, hex => by
      obtain ⟨p, hp⟩ := Option.isSome_iff_exists.mp
        (hall (pid, qty) (List.mem_cons_self _ _))
      simp only [checkStock, hp]
      by_cases hlt : p.stock < qty
      · rw [if_pos hlt]
      · rw [if_neg hlt]
        apply checkStock_error_of_exists rest ps
          (fun pq hpq => hall pq (List.mem_cons_of_mem _ hpq))
        obtain ⟨pq, hpq, hs⟩ := hex
        rcases List.mem_cons.mp hpq with h | h
        · subst h
          rw [stockOf_eq_of_findProduct hp] at hs
          exact absurd hs hlt
        · exact ⟨pq, h, hs⟩

theorem checkStock_ok_of_all :
    ∀ (L : List (Nat × Int)) (ps : List Product),
      (∀ pq ∈ L, (findProduct ps pq.1).isSome = true ∧ pq.2 ≤ stockOf ps pq.1) →
      checkStock ps L = .ok ()
  | [], ps, _ => rfl
  | (pid, qty) :: rest, ps, hall => by
      obtain ⟨hsome, hle⟩ := hall (pid, qty) (List.mem_cons_self _ _)
      obtain ⟨p, hp⟩ := Option.isSome_iff_exists.mp hsome
      simp only [checkStock, hp]
      rw [if_neg (by
        rw [stockOf_eq_of_findProduct hp] at hle
        omega)]
      exact checkStock_ok_of_all rest ps
        (fun pq hpq => hall pq (List.mem_cons_of_mem _ hpq))

theorem applyStockUpdates_ok :
    ∀ (L : List (Nat × Int)) (ps : List Product),
      ((L.map Prod.fst).Nodup) →
      (∀ pq ∈ L, (findProduct ps pq.1).isSome = true ∧ pq.2 ≤ stockOf ps pq.1) →
      ∃ ps2, applyStockUpdates ps L = .ok ps2 ∧
        ∀ pid, stockOf ps2 pid = stockOf ps pid -
          ((L.filter (fun pq => pq.1 = pid)).map (fun pq => pq.2)).sum
  | [], ps, _, _ => ⟨ps, rfl, fun pid => by simp⟩
  | (pid0, q0) :: rest, ps, hnd, hall => by
      obtain ⟨hsome, hle0⟩ := hall (pid0, q0) (List.mem_cons_self _ _)
      obtain ⟨p, hp0⟩ := Option.isSome_iff_exists.mp hsome
      have hp : findProduct ps pid0 = some p := hp0
      have hle : q0 ≤ stockOf ps pid0 := hle0
      have hps : p.stock = stockOf ps pid0 := (stockOf_eq_of_findProduct hp).symm
      have hok : updateStockWithTx ps pid0 (-q0) =
          .ok (setProductStock ps pid0 (p.stock + -q0)) :=
        updateStockWithTx_ok hp (by omega)
      set ps1 := setProductStock ps pid0 (p.stock + -q0) with hps1
      rw [List.map_cons] at hnd
      obtain ⟨hnotin, hndrest⟩ := List.nodup_cons.mp hnd
      have hstockOf1 : ∀ pid, stockOf ps1 pid =
          stockOf ps pid - (if pid0 = pid then q0 else 0) := by
        intro pid
        by_cases hpid : pid = pid0
        · subst hpid
          rw [hps1, stockOf_setProductStock_same hp, if_pos rfl]
          omega
        · rw [hps1, stockOf_setProductStock_other hpid,
            if_neg (fun hc => hpid hc.symm)]
          omega
      have hrest : ∀ pq ∈ rest, (findProduct ps1 pq.1).isSome = true ∧
          pq.2 ≤ stockOf ps1 pq.1 := by
        intro pq hpq
        obtain ⟨h1, h2⟩ := hall pq (List.mem_cons_of_mem _ hpq)
        have hne : pid0 ≠ pq.1 := by
          intro hc
          exact hnotin (by
            rw [hc]
            exact List.mem_map.mpr ⟨pq, hpq, rfl⟩)
        refine ⟨?_, ?_⟩
        · rw [hps1, findProduct_setProductStock_isSome]
          exact h1
        · rw [hstockOf1 pq.1, if_neg hne]
          omega
      obtain ⟨ps2, hps2, hsum⟩ := applyStockUpdates_ok rest ps1 hndrest hrest
      refine ⟨ps2, ?_, ?_⟩
      · unfold applyStockUpdates
        rw [hok]
        exact hps2
      · intro pid
        rw [hsum pid, hstockOf1 pid, List.filter_cons]
        by_cases hpid : pid0 = pid
        · simp [hpid]
          omega
        · simp [hpid]

/-- Evaluation of CreateOrder past validation and item building. -/
theorem createOrder_eval (s : DBState) (input : CreateOrderRequest)
    (uid nid : Nat) (ois : List OrderItem) (total : Int)
    (hval : validateCreateRequest input = true) (huid : uid ≠ 0)
    (hb : buildOrderItems s.products input.items = .ok (ois, total)) :
    createOrder s input uid nid =
      match checkStock s.products (stockUpdates input.items) with
      | .error e => (.error e, s)
      | .ok _ =>
          match applyStockUpdates s.products (stockUpdates input.items) with
          | .error e => (.error e, s)
          | .ok ps2 =>
              (.ok ⟨nid, uid, total, StatusPending, ois⟩,
               ⟨ps2, s.orders ++ [⟨nid, uid, total, StatusPending, ois⟩]⟩) := by
  unfold createOrder
  rw [hval]
  rw [if_neg (by simp), if_neg huid, hb]

/-- C3: requested quantities are coalesced per distinct product before the
stock check; CreateOrder fails with InsufficientStock, reserving nothing,
whenever some product's coalesced requested quantity exceeds its current
stock; otherwise it succeeds and each product's stock is decremented by
exactly its coalesced quantity (zero for unreferenced products). -/
theorem createOrder_coalesced_stock_check (s : DBState)
    (input : CreateOrderRequest) (userID newID : Nat)
    (hval : validateCreateRequest input = true) (huid : userID ≠ 0)
    (hprods : ∀ it ∈ input.items,
      (findProduct s.products it.productID).isSome = true) :
    ((∃ it ∈ input.items,
        stockOf s.products it.productID < coalescedQty input.items it.productID) →
      createOrder s input userID newID = (.error .insufficientStock, s))
    ∧ ((∀ it ∈ input.items,
        coalescedQty input.items it.productID ≤ stockOf s.products it.productID) →
      ∃ ord ps2,
        createOrder s input userID newID = (.ok ord, ⟨ps2, s.orders ++ [ord]⟩) ∧
        ∀ pid, stockOf ps2 pid =
          stockOf s.products pid - coalescedQty input.items pid) := by
  obtain ⟨ois, total, hb⟩ := buildOrderItems_exists input.items s.products hprods
  have hkeys : ∀ pq ∈ stockUpdates input.items,
      (findProduct s.products pq.1).isSome = true := by
    intro pq hpq
    obtain ⟨⟨it, hit, hid⟩, -⟩ := (mem_stockUpdates input.items pq).mp hpq
    rw [← hid]
    exact hprods it hit
  constructor
  · rintro ⟨it, hit, hlt⟩
    have hcs : checkStock s.products (stockUpdates input.items) =
        .error .insufficientStock := by
      apply checkStock_error_of_exists _ _ hkeys
      refine ⟨(it.productID, coalescedQty input.items it.productID), ?_, hlt⟩
      exact (mem_stockUpdates _ _).mpr ⟨⟨it, hit, rfl⟩, rfl⟩
    rw [createOrder_eval s input userID newID ois total hval huid hb, hcs]
  · intro hle
    have hallE : ∀ pq ∈ stockUpdates input.items,
        (findProduct s.products pq.1).isSome = true ∧
          pq.2 ≤ stockOf s.products pq.1 := by
      intro pq hpq
      obtain ⟨⟨it, hit, hid⟩, hq⟩ := (mem_stockUpdates input.items pq).mp hpq
      refine ⟨hkeys pq hpq, ?_⟩
      rw [hq, ← hid]
      exact hle it hit
    have hcs := checkStock_ok_of_all _ _ hallE
    have hnd : ((stockUpdates input.items).map Prod.fst).Nodup := by
      rw [stockUpdates_keys]
      exact distinctProductIDs_nodup input.items
    obtain ⟨ps2, ha, hsum⟩ := applyStockUpdates_ok _ _ hnd hallE
    refine ⟨⟨newID, userID, total, StatusPending, ois⟩, ps2, ?_, ?_⟩
    · rw [createOrder_eval s input userID newID ois total hval huid hb, hcs, ha]
    · intro pid
      rw [hsum pid, qtyIn_stockUpdates]

/-- Witness for C3: two lines for product 1 (quantities 2 and 3, coalesced 5,
stock 10) next to an untouched product 2. -/
theorem createOrder_coalesced_stock_check_witness :
    ((∃ it ∈ ({ items := [⟨1, 2⟩, ⟨1, 3⟩] } : CreateOrderRequest).items,
        stockOf [⟨1, "p", 5, 10⟩, ⟨2, "q", 3, 1⟩] it.productID <
          coalescedQty [⟨1, 2⟩, ⟨1, 3⟩] it.productID) →
      createOrder ⟨[⟨1, "p", 5, 10⟩, ⟨2, "q", 3, 1⟩], []⟩ ⟨[⟨1, 2⟩, ⟨1, 3⟩]⟩ 7 1 =
        (.error .insufficientStock, ⟨[⟨1, "p", 5, 10⟩, ⟨2, "q", 3, 1⟩], []⟩))
    ∧ ((∀ it ∈ ({ items := [⟨1, 2⟩, ⟨1, 3⟩] } : CreateOrderRequest).items,
        coalescedQty [⟨1, 2⟩, ⟨1, 3⟩] it.productID ≤
          stockOf [⟨1, "p", 5, 10⟩, ⟨2, "q", 3, 1⟩] it.productID) →
      ∃ ord ps2,
        createOrder ⟨[⟨1, "p", 5, 10⟩, ⟨2, "q", 3, 1⟩], []⟩ ⟨[⟨1, 2⟩, ⟨1, 3⟩]⟩ 7 1 =
          (.ok ord, ⟨ps2, [] ++ [ord]⟩) ∧
        ∀ pid, stockOf ps2 pid =
          stockOf [⟨1, "p", 5, 10⟩, ⟨2, "q", 3, 1⟩] pid -
            coalescedQty [⟨1, 2⟩, ⟨1, 3⟩] pid) :=
  createOrder_coalesced_stock_check
    ⟨[⟨1, "p", 5, 10⟩, ⟨2, "q", 3, 1⟩], []⟩ ⟨[⟨1, 2⟩, ⟨1, 3⟩]⟩ 7 1
    (by decide) (by decide) (by decide)

end MiniEcommerce
